import Mathlib

/-!
Shallow embedding of the Ferlab-Ste-Justine/git-sdk Go library.

The library wraps go-git: it syncs a local working copy with a remote
(clone-or-pull), commits a bounded file list, verifies the head commit's
signature, and pushes with bounded retry on non-fast-forward conflicts.
The go-git engine itself (transport, object storage, worktree) is an
external collaborator; its calls are modelled as environment records whose
fields give each call's outcome (`Except`/`Option` of the Go error message
string), while every branch, error-message construction and retry decision
of the SDK's own code is translated statement by statement from the source.
-/

set_option linter.unusedVariables false

namespace GitSDK

/-- Go `strings.HasPrefix`, computed on the character lists so that concrete
instances evaluate inside the kernel. -/
def hasLeading (s pre : String) : Bool :=
  pre.data.isPrefixOf s.data

/-- Error message of go-git's `NoErrAlreadyUpToDate` sentinel, which the SDK
compares against by rendered text. -/
def noErrAlreadyUpToDate : String := "already up-to-date"

/-- Error message of go-git's `ErrNonFastForwardUpdate` sentinel, compared
against by rendered text in `pullRepo`. -/
def errNonFastForwardUpdate : String := "non-fast-forward update"

/-- The literal head that `PushChanges` tests with `strings.HasPrefix` to
recognise a non-fast-forward push failure. -/
def nonFastForwardHead : String := "non-fast-forward update:"

/-- Opaque stand-in for the SDK's `GitRepository` wrapper around a go-git
repository pointer. -/
structure GitRepository where
  id : Nat
deriving DecidableEq, Repr

/-- Terminal message built by `PushChanges` when the retry budget is
exhausted by repeated non-fast-forward conflicts. -/
def pushGaveUpMsg : String :=
  "Push operation continuously failed due to remote updates. Giving up."

/-- Wrapped message built by `PushChanges` for a push failure that is neither
the already-up-to-date sentinel nor a non-fast-forward conflict. -/
def pushOtherErrMsg (e : String) : String :=
  "Error pushing file changes: " ++ e

/-- Outcome of one iteration of the `PushChanges` body up to (but not
including) the retry decision: either the function returns now with the given
Go error (`none` = nil), or the push failed with a non-fast-forward conflict
and the source consults the retry budget. -/
inductive PushStep where
  | done (res : Option String)
  | conflict
deriving DecidableEq, Repr

/-- One iteration of the `PushChanges` body (part_003 lines 221-257): invoke
the hook, propagate its error, stop silently on a nil repository, push, and
classify the push failure — already-up-to-date is success, a failure whose
text starts with "non-fast-forward update:" is a conflict, anything else is
the wrapped hard error.  The side-effecting hook and the network push are
modelled as oracles indexed by the iteration counter `k` (iteration n calls
`hook n` and, if a repository is returned, pushes with outcome
`push n repo`). -/
def pushIteration (hook : Nat → Except String (Option GitRepository))
    (push : Nat → GitRepository → Option String) (k : Nat) : PushStep :=
  match hook k with
  | .error e => .done (some e)
  | .ok none => .done none
  | .ok (some repo) =>
    match push k repo with
    | none => .done none
    | some pushErr =>
      if pushErr = noErrAlreadyUpToDate then .done none
      else if hasLeading pushErr nonFastForwardHead then .conflict
      else .done (some (pushOtherErrMsg pushErr))

/-- Embedding of `PushChanges` (part_003 lines 220-261), recursing exactly as
the source does: on a non-fast-forward conflict with an exhausted budget the
terminal give-up error is returned, otherwise the whole function restarts
with the budget decremented and the next oracle index.  Go's `int64 retries`
is modelled on its non-negative range as a `Nat`, where the source's
`retries == 0` test and `retries - 1` decrement coincide with `Nat` pattern
matching; since that test is pure and only read inside the conflict branch,
the budget match is hoisted to the top with both arms carrying the identical
iteration body.  The result is the returned Go error (`none` = nil). -/
def PushChanges (hook : Nat → Except String (Option GitRepository))
    (push : Nat → GitRepository → Option String) :
    Nat → Nat → Option String
  | k, 0 =>
    match pushIteration hook push k with
    | .done res => res
    | .conflict => some pushGaveUpMsg
  | k, r + 1 =>
    match pushIteration hook push k with
    | .done res => res
    | .conflict => PushChanges hook push (k + 1) r

/-- Number of times `PushChanges` invokes its hook: one per iteration of the
recursion (every non-retry branch of the source body performs exactly the one
initial invocation). -/
def PushChangesCalls (hook : Nat → Except String (Option GitRepository))
    (push : Nat → GitRepository → Option String) :
    Nat → Nat → Nat
  | k, 0 => 1
  | k, r + 1 =>
    match pushIteration hook push k with
    | .done _ => 1
    | .conflict => 1 + PushChangesCalls hook push (k + 1) r

/-- Fuel-indexed unfolding of the `PushChanges` recursion: identical body,
but each recursive self-call consumes one unit of fuel and exhausted fuel
yields `none` (the outer `Option` layer), so a `some` result witnesses that
the recursion bottomed out within the given depth. -/
def PushChangesFuel (hook : Nat → Except String (Option GitRepository))
    (push : Nat → GitRepository → Option String) :
    Nat → Nat → Nat → Option (Option String)
  | 0, _, _ => none
  | fuel + 1, k, retries =>
    match pushIteration hook push k with
    | .done res => some res
    | .conflict =>
      if retries = 0 then some (some pushGaveUpMsg)
      else PushChangesFuel hook push fuel (k + 1) (retries - 1)

/-- Outcome of the `os.Stat(path.Join(dir, ".git"))` probe in `SyncGitRepo`:
success, a "not exist"-class error (where Go's `os.IsNotExist` reports true),
or any other stat error. -/
inductive StatResult where
  | ok
  | errNotExist (msg : String)
  | errOther (msg : String)
deriving DecidableEq, Repr

/-- Environment for `pullRepo` (part_000 lines 34-70): outcomes of the
go-git calls it makes, in order: `PlainOpen`, `Worktree`, `Pull` (with the
Go error message, `none` = nil), and `Head` (returning the head hash
rendered as a string). -/
structure PullEnv where
  openRes : Except String Unit
  worktreeRes : Except String Unit
  pullRes : Option String
  headRes : Except String String
deriving Repr

/-- Embedding of `pullRepo` (part_000 lines 34-70).  Returns the triple
(handle, fastForwardProblems flag, error); the source always returns the
non-nil wrapper `&GitRepository{repo}`, modelled as `some ()`. -/
def pullRepo (env : PullEnv) (dir : String) : Option Unit × Bool × Option String :=
  match env.openRes with
  | .error e =>
    (some (), true, some ("Error accessing repo in directory \"" ++ dir ++ "\": " ++ e))
  | .ok _ =>
    match env.worktreeRes with
    | .error e =>
      (some (), true, some ("Error accessing worktree in directory \"" ++ dir ++ "\": " ++ e))
    | .ok _ =>
      match env.pullRes with
      | some pullErr =>
        if pullErr ≠ noErrAlreadyUpToDate then
          (some (), pullErr == errNonFastForwardUpdate,
            some ("Error pulling latest changes in directory \"" ++ dir ++ "\": " ++ pullErr))
        else
          (some (), false, none)
      | none =>
        match env.headRes with
        | .error e =>
          (some (), true, some ("Error accessing top commit in directory \"" ++ dir ++ "\": " ++ e))
        | .ok _ => (some (), false, none)

/-- Embedding of `cloneRepo` (part_000 lines 14-32): the go-git `PlainClone`
outcome is `cloneRes` (`none` = nil error); the wrapper handle is always
returned non-nil. -/
def cloneRepo (cloneRes : Option String) (dir : String) : Option Unit × Option String :=
  match cloneRes with
  | some e => (some (), some ("Error cloning in directory \"" ++ dir ++ "\": " ++ e))
  | none => (some (), none)

/-- Environment for `SyncGitRepo`: the `.git` probe outcome plus the
environments of the clone and pull paths. -/
structure SyncEnv where
  statDotGit : StatResult
  cloneRes : Option String
  pullEnv : PullEnv
deriving Repr

/-- Which branch of `SyncGitRepo` executed; observable in Go through the
side effects (clone writes a fresh checkout, pull updates an existing one,
the probe-failure branch touches nothing). -/
inductive SyncAction where
  | probeFailed
  | cloned
  | pulled
deriving DecidableEq, Repr

/-- Embedding of `SyncGitRepo` (part_000 lines 76-88).  The first component
tags which branch ran; the second mirrors the Go returns
(handle, fastForwardProblems, error), where `none` in the first slot is the
literal nil handle of the probe-failure branch. -/
def SyncGitRepo (env : SyncEnv) (dir : String) :
    SyncAction × (Option Unit × Bool × Option String) :=
  match env.statDotGit with
  | .errOther e =>
    (.probeFailed,
      (none, false, some ("Error accessing repo directory's .git sub-directory: " ++ e)))
  | .errNotExist _ =>
    let c := cloneRepo env.cloneRes dir
    (.cloned, (c.1, false, c.2))
  | .ok => (.pulled, pullRepo env.pullEnv dir)

/-- Repository state visible to `CommitFiles`: the head commit identifier,
which only a successful `Commit` call advances. -/
structure RepoState where
  head : Nat
deriving DecidableEq, Repr

/-- Environment for `CommitFiles` (part_003 lines 162-206): outcomes of
`Worktree`, of `Add` per staged file (`none` = nil), of `Status` (the list
of changed entries), and of `Commit` (the new head identifier). -/
structure CommitEnv where
  worktreeRes : Except String Unit
  addRes : String → Option String
  statusRes : Except String (List String)
  commitRes : Except String Nat

/-- Staging loop of `CommitFiles`: `Add` each file in order, aborting with
the wrapped message on the first failure. -/
def stageFiles (addRes : String → Option String) : List String → Option String
  | [] => none
  | f :: fs =>
    match addRes f with
    | some e => some ("Error staging file " ++ f ++ " for commit: " ++ e)
    | none => stageFiles addRes fs

/-- Embedding of `CommitFiles` (part_003 lines 162-206).  Returns the state
after the call together with the Go results `(committed, error)`.  The
zero-status branch returns `(false, nil)` before `Commit` is ever reached,
so the head is untouched there. -/
def CommitFiles (env : CommitEnv) (st : RepoState) (files : List String)
    (msg : String) : RepoState × Bool × Option String :=
  match env.worktreeRes with
  | .error e => (st, false, some ("Error accessing repo worktree: " ++ e))
  | .ok _ =>
    match stageFiles env.addRes files with
    | some e => (st, false, some e)
    | none =>
      match env.statusRes with
      | .error e =>
        (st, false, some ("Error getting repo status after staging files: " ++ e))
      | .ok stat =>
        if stat.length = 0 then (st, false, none)
        else
          match env.commitRes with
          | .error e => (st, false, some ("Error commiting file changes: " ++ e))
          | .ok newHead => ({ st with head := newHead }, true, none)

/-- Environment for `VerifyTopCommit` (part_003 lines 122-144): outcome of
`Head` (the head hash rendered as a string), of `CommitObject`, and of
`commit.Verify` per armored keyring (`true` = nil verification error). -/
structure VerifyEnv where
  headRes : Except String String
  commitObjRes : Except String Unit
  verify : String → Bool

/-- Keyring loop of `VerifyTopCommit`: true as soon as one keyring
verifies, trying them in order. -/
def verifyKeyrings (verify : String → Bool) : List String → Bool
  | [] => false
  | k :: ks => if verify k then true else verifyKeyrings verify ks

/-- Number of `commit.Verify` calls the keyring loop performs: it stops at
the first keyring that verifies. -/
def verifyAttempts (verify : String → Bool) : List String → Nat
  | [] => 0
  | k :: ks => if verify k then 1 else 1 + verifyAttempts verify ks

/-- Embedding of `VerifyTopCommit` (part_003 lines 122-144).  Returns the Go
error (`none` = nil). -/
def VerifyTopCommit (env : VerifyEnv) (armoredKeyrings : List String) : Option String :=
  match env.headRes with
  | .error e => some ("Error accessing repo head: " ++ e)
  | .ok h =>
    match env.commitObjRes with
    | .error e => some ("Error accessing repo top commit: " ++ e)
    | .ok _ =>
      if verifyKeyrings env.verify armoredKeyrings then none
      else some ("Top commit \"" ++ h ++ "\" isn't signed with any of the trusted keys")

/-- Stand-in for go-git's `ssh.PublicKeys`; `NewPublicKeysFromFile(user, ...)`
stores its user argument in the `User` field, which is all the SDK's callers
observe of it. -/
structure PublicKeys where
  user : String
deriving DecidableEq, Repr

/-- The SDK's `SshCredentials` wrapper. -/
structure SshCredentials where
  keys : PublicKeys
deriving DecidableEq, Repr

/-- Environment for `GetSshCredentials` (part_003 lines 44-72): outcomes of
the `os.Stat` on the key file, of `ssh.NewPublicKeysFromFile` (given the
user it is called with), of the `os.Stat` on the known-hosts file, and of
`ssh.NewKnownHostsCallback`. -/
structure SshEnv where
  statSshKey : Option String
  newPublicKeysFromFile : String → Except String Unit
  statKnownHosts : Option String
  knownHostsCallback : Except String Unit

/-- Embedding of `GetSshCredentials` (part_003 lines 44-72).  Mirrors the
source's in-place rewrite of an empty `user` to "git" before the key
constructor is called; on success the returned credentials carry the
effective user. -/
def GetSshCredentials (env : SshEnv) (sshKeyPath knownHostsPath user : String) :
    Except String SshCredentials :=
  match env.statSshKey with
  | some e => .error ("Failed to access ssh key file " ++ sshKeyPath ++ ": " ++ e)
  | none =>
    let user := if user = "" then "git" else user
    match env.newPublicKeysFromFile user with
    | .error e => .error ("Failed to generate public key: " ++ e)
    | .ok _ =>
      match env.statKnownHosts with
      | some e => .error ("Failed to access known hosts file " ++ knownHostsPath ++ ": " ++ e)
      | none =>
        match env.knownHostsCallback with
        | .error e => .error ("Failed to parse known hosts file " ++ knownHostsPath ++ ": " ++ e)
        | .ok _ => .ok ⟨⟨user⟩⟩

/-- Go `strings.Split(s, "/")` on the character list: split at every slash,
keeping empty fields (so the result is never empty). -/
def splitSlashAux (cur : List Char) : List Char → List String
  | [] => [String.mk cur.reverse]
  | c :: cs =>
    if c = '/' then String.mk cur.reverse :: splitSlashAux [] cs
    else splitSlashAux (c :: cur) cs

/-- Go `strings.Split(s, "/")`. -/
def splitSlash (s : String) : List String :=
  splitSlashAux [] s.data

/-- Join path elements with slashes (the `strings.Join(elems, "/")` step of
Go `path.Clean`'s output construction). -/
def joinSlash : List String → String
  | [] => ""
  | [s] => s
  | s :: rest => s ++ "/" ++ joinSlash rest

/-- Whether the path is rooted, i.e. its first byte is a slash. -/
def firstIsSlash (s : String) : Bool :=
  match s.data with
  | [] => false
  | c :: _ => c = '/'

/-- Whether the string's last byte is a slash (the
`sourcePath[len(sourcePath)-1:] == "/"` test of `stripsourcePath`). -/
def lastIsSlash (s : String) : Bool :=
  s.data.getLast? == some '/'

/-- One step of Go `path.Clean`'s lexical element processing, accumulating
output elements in reverse: empty and "." elements vanish; ".." pops the
previous element unless the output is empty (kept when unrooted, dropped
when rooted) or already ends in "..". -/
def cleanPushSeg (rooted : Bool) (out : List String) (seg : String) : List String :=
  if seg = "" ∨ seg = "." then out
  else if seg = ".." then
    match out with
    | [] => if rooted then [] else [".."]
    | prev :: rest => if prev = ".." then ".." :: out else rest
  else seg :: out

/-- Go `path.Clean`: purely lexical simplification of a slash-separated
path. -/
def clean (p : String) : String :=
  if p = "" then "."
  else
    let rooted := firstIsSlash p
    let out := ((splitSlash p).foldl (cleanPushSeg rooted) []).reverse
    let body := joinSlash out
    if rooted then
      if body = "" then "/" else "/" ++ body
    else
      if body = "" then "." else body

/-- Go `path.Join` on two elements: drop empty elements, join the rest with
a slash and `Clean` the result ("" when both are empty, as `Join` returns
before cleaning then). -/
def pathJoin (a b : String) : String :=
  if a = "" ∧ b = "" then ""
  else if a = "" then clean b
  else if b = "" then clean a
  else clean (a ++ "/" ++ b)

/-- Go `strings.TrimPrefix`: remove the leading occurrence of `pre` from
`s`, or return `s` unchanged when it does not start with `pre`. -/
def trimLeading (s pre : String) : String :=
  if hasLeading s pre then String.mk (s.data.drop pre.data.length) else s

/-- Embedding of `stripsourcePath` (gitmem.go lines 153-163). -/
def stripsourcePath (fPath sourcePath : String) : String :=
  if sourcePath = "" then fPath
  else if lastIsSlash sourcePath then trimLeading fPath sourcePath
  else trimLeading fPath (sourcePath ++ "/")

/-- The billy in-memory filesystem tree: a node is a regular file with its
content or a directory with named entries (`ReadDir` of a directory node
yields exactly its entry list). -/
inductive FsTree where
  | file (content : String)
  | dir (entries : List (String × FsTree))

/-- Embedding of `buildKeySpace` (gitmem.go lines 165-202), structured over
the tree: the `ReadDir(fPath)` of the source is the entry list passed in,
and each recursive `ReadDir(path.Join(fPath, name))` is the corresponding
subdirectory's entry list.  Key/value insertions are collected in source
order as an association list (all keys produced on the trees considered here
are distinct, so this is the resulting Go map). -/
def buildKeySpace (fPath sourcePath : String) : List (String × FsTree) → List (String × String)
  | [] => []
  | (name, FsTree.dir sub) :: rest =>
    buildKeySpace (pathJoin fPath name) sourcePath sub ++ buildKeySpace fPath sourcePath rest
  | (name, FsTree.file content) :: rest =>
    (pathJoin (stripsourcePath fPath sourcePath) name, content)
      :: buildKeySpace fPath sourcePath rest

/-- Look up a directory entry by name, in `ReadDir` listing order. -/
def childNamed (name : String) : List (String × FsTree) → Option FsTree
  | [] => none
  | (n, t) :: rest => if n = name then some t else childNamed name rest

/-- Resolve a sequence of path elements against the tree. -/
def resolveSegs : FsTree → List String → Option FsTree
  | t, [] => some t
  | FsTree.dir entries, s :: rest =>
    match childNamed s entries with
    | some t => resolveSegs t rest
    | none => none
  | FsTree.file _, _ :: _ => none

/-- Path elements of the cleaned form of `p` (empty for the root). -/
def pathSegs (p : String) : List String :=
  (splitSlash (clean p)).filter (fun s => s != "" && s != ".")

/-- Embedding of `MemoryStore.GetKeyVals` (gitmem.go lines 147-151): its
initial `buildKeySpace(sourcePath, sourcePath, ...)` first performs
`ReadDir(sourcePath)`, modelled by resolving `sourcePath` in the store's
tree; a path that does not name a directory is the `ReadDir` error case. -/
def GetKeyVals (root : FsTree) (sourcePath : String) :
    Except String (List (String × String)) :=
  match resolveSegs root (pathSegs sourcePath) with
  | some (FsTree.dir entries) => .ok (buildKeySpace sourcePath sourcePath entries)
  | _ => .error "ReadDir failed"

/-! Concrete environments used by the witnesses. -/

/-- A hook that always returns a repository with staged changes. -/
def conflictHook : Nat → Except String (Option GitRepository) :=
  fun _ => .ok (some ⟨0⟩)

/-- A push oracle that always fails with a non-fast-forward conflict. -/
def conflictPush : Nat → GitRepository → Option String :=
  fun _ _ => some "non-fast-forward update: rejected"

/-- A hook that always reports nothing to push (nil repository, nil error). -/
def nothingHook : Nat → Except String (Option GitRepository) :=
  fun _ => .ok none

/-- A push oracle that always fails hard; used to observe that a code path
never pushes. -/
def errorPush : Nat → GitRepository → Option String :=
  fun _ _ => some "unreachable push"

/-- A hook that always fails. -/
def failingHook : Nat → Except String (Option GitRepository) :=
  fun _ => .error "hook failed"

/-- A push oracle that always fails with an error that is neither
already-up-to-date nor a non-fast-forward conflict. -/
def deniedPush : Nat → GitRepository → Option String :=
  fun _ _ => some "unauthorized"

/-- Pull environment where the repository opens fine and the worktree is
accessible, but the network pull fails with an error unrelated to
fast-forwarding. -/
def netFailPullEnv : PullEnv :=
  { openRes := .ok (), worktreeRes := .ok (), pullRes := some "network error",
    headRes := .ok "abc123" }

/-- Pull environment whose pull fails with exactly the non-fast-forward
sentinel. -/
def nonFFPullEnv : PullEnv :=
  { openRes := .ok (), worktreeRes := .ok (),
    pullRes := some "non-fast-forward update", headRes := .ok "abc123" }

/-- Pull environment whose pull reports already-up-to-date. -/
def upToDatePullEnv : PullEnv :=
  { openRes := .ok (), worktreeRes := .ok (),
    pullRes := some "already up-to-date", headRes := .ok "abc123" }

/-- Sync environment for a directory with no `.git` marker. -/
def syncEnvFresh : SyncEnv :=
  { statDotGit := .errNotExist "no such file or directory", cloneRes := none,
    pullEnv := upToDatePullEnv }

/-- Sync environment for a directory that already holds the `.git` marker. -/
def syncEnvExisting : SyncEnv :=
  { statDotGit := .ok, cloneRes := none, pullEnv := upToDatePullEnv }

/-- Sync environment where the `.git` probe fails with a non-"not exist"
error. -/
def syncEnvDenied : SyncEnv :=
  { statDotGit := .errOther "permission denied", cloneRes := none,
    pullEnv := upToDatePullEnv }

/-- Commit environment where staging succeeds on every file and the status
after staging is empty (a file list byte-identical to the last commit). -/
def noChangeCommitEnv : CommitEnv :=
  { worktreeRes := .ok (), addRes := fun _ => none, statusRes := .ok [],
    commitRes := .ok 99 }

/-- Verification environment whose head resolves and where exactly the
keyring "k2" verifies the head commit's signature. -/
def verifyEnvSecond : VerifyEnv :=
  { headRes := .ok "abc123", commitObjRes := .ok (),
    verify := fun k => k == "k2" }

/-- Credential environment where every external call succeeds. -/
def okSshEnv : SshEnv :=
  { statSshKey := none, newPublicKeysFromFile := fun _ => .ok (),
    statKnownHosts := none, knownHostsCallback := .ok () }

/-- The in-memory store exhibiting the `stripsourcePath` behaviour on direct
children of the requested prefix: a directory "sub" holding the single
regular file "f" with content "x". -/
def bugStore : FsTree :=
  FsTree.dir [("sub", FsTree.dir [("f", FsTree.file "x")])]

/-! Helper lemmas shared between the claim theorems. -/

/-- A push failure recognised as non-fast-forward by its text cannot be the
already-up-to-date sentinel (their first characters differ). -/
theorem hasLeading_nonFF_ne_uptodate (e : String)
    (h : hasLeading e nonFastForwardHead = true) : e ≠ noErrAlreadyUpToDate := by
  intro he
  subst he
  exact absurd h (by decide)

/-- When the hook yields a repository and the push fails with a
non-fast-forward text, the iteration classifies as a conflict. -/
theorem pushIteration_conflict_of (hook : Nat → Except String (Option GitRepository))
    (push : Nat → GitRepository → Option String) (k : Nat) (r : GitRepository)
    (e : String) (hh : hook k = .ok (some r)) (hp : push k r = some e)
    (hpre : hasLeading e nonFastForwardHead = true) :
    pushIteration hook push k = .conflict := by
  have hne := hasLeading_nonFF_ne_uptodate e hpre
  simp [pushIteration, hh, hp, hne, hpre]

/-- The keyring loop succeeds exactly when some keyring verifies. -/
theorem verifyKeyrings_true_iff (v : String → Bool) (ks : List String) :
    verifyKeyrings v ks = true ↔ ∃ k ∈ ks, v k = true := by
  induction ks with
  | nil => simp [verifyKeyrings]
  | cons a l ih =>
    by_cases h : v a <;> simp [verifyKeyrings, h, ih]

/-- The keyring loop performs one verification per failing keyring before the
first succeeding one, then stops. -/
theorem verifyAttempts_stops_at_first (v : String → Bool) (ks₁ : List String)
    (k : String) (ks₂ : List String) (h1 : ∀ x ∈ ks₁, v x = false)
    (h2 : v k = true) :
    verifyAttempts v (ks₁ ++ k :: ks₂) = ks₁.length + 1 := by
  induction ks₁ with
  | nil => simp [verifyAttempts, h2]
  | cons a l ih =>
    have ha : v a = false := h1 a (by simp)
    have ihl := ih (fun x hx => h1 x (by simp [hx]))
    simp [verifyAttempts, ha, ihl]
    omega

/-! Claim theorems. -/

/-- C1: under a hook whose pushes always fail with a non-fast-forward
conflict, `PushChanges` re-invokes the hook and re-attempts the push exactly
`retries` times after the initial attempt (so `retries + 1` hook invocations
in total) and returns the terminal give-up error; at `retries = 0` the
terminal error comes immediately after the first conflicting push with no
retry. -/
theorem pushChanges_persistent_conflict
    (hook : Nat → Except String (Option GitRepository))
    (push : Nat → GitRepository → Option String)
    (hhook : ∀ n, ∃ r, hook n = .ok (some r))
    (hpush : ∀ n r, ∃ e, push n r = some e ∧ hasLeading e nonFastForwardHead = true)
    (retries k : Nat) :
    PushChanges hook push k retries = some pushGaveUpMsg ∧
      PushChangesCalls hook push k retries = retries + 1 := by
  induction retries generalizing k with
  | zero =>
    obtain ⟨r, hh⟩ := hhook k
    obtain ⟨e, hp, hpre⟩ := hpush k r
    have hstep := pushIteration_conflict_of hook push k r e hh hp hpre
    exact ⟨by simp [PushChanges, hstep], by simp [PushChangesCalls]⟩
  | succ n ih =>
    obtain ⟨r, hh⟩ := hhook k
    obtain ⟨e, hp, hpre⟩ := hpush k r
    have hstep := pushIteration_conflict_of hook push k r e hh hp hpre
    obtain ⟨ih1, ih2⟩ := ih (k + 1)
    refine ⟨by simp [PushChanges, hstep, ih1], ?_⟩
    simp [PushChangesCalls, hstep, ih2]
    omega

/-- Witness for C1: with an always-conflicting hook/push pair and budget 2,
the run gives up and invokes the hook 3 times; this instantiates the general
theorem, whose `retries = 0` instance is the immediate-failure case. -/
theorem pushChanges_persistent_conflict_witness :
    PushChanges conflictHook conflictPush 0 2 = some pushGaveUpMsg ∧
      PushChangesCalls conflictHook conflictPush 0 2 = 2 + 1 :=
  pushChanges_persistent_conflict conflictHook conflictPush
    (fun _ => ⟨⟨0⟩, rfl⟩)
    (fun _ _ => ⟨"non-fast-forward update: rejected", rfl, by decide⟩) 2 0

/-- C7: when the hook reports nothing to push (nil repository, nil error),
`PushChanges` returns nil immediately — for every push oracle, so no push is
ever attempted — whatever the retry budget. -/
theorem pushChanges_nil_repo_skips_push
    (hook : Nat → Except String (Option GitRepository)) (k retries : Nat)
    (h : hook k = .ok none) :
    ∀ push, PushChanges hook push k retries = none := by
  intro push
  cases retries <;> simp [PushChanges, pushIteration, h]

/-- Witness for C7: the nothing-to-push hook with a poisoned push oracle
still returns success. -/
theorem pushChanges_nil_repo_skips_push_witness :
    PushChanges nothingHook errorPush 0 5 = none :=
  pushChanges_nil_repo_skips_push nothingHook 0 5 rfl errorPush

/-- C8: `PushChanges` retries only on non-fast-forward conflicts — a hook
error is returned as-is with a single hook invocation and no retry, and a
push failure that is neither already-up-to-date nor non-fast-forward is
returned as the wrapped hard error, again with a single hook invocation. -/
theorem pushChanges_hard_errors_terminal
    (hook : Nat → Except String (Option GitRepository))
    (push : Nat → GitRepository → Option String) (k retries : Nat) :
    (∀ e, hook k = .error e →
      PushChanges hook push k retries = some e ∧
        PushChangesCalls hook push k retries = 1) ∧
    (∀ r e, hook k = .ok (some r) → push k r = some e →
      e ≠ noErrAlreadyUpToDate → hasLeading e nonFastForwardHead = false →
      PushChanges hook push k retries = some (pushOtherErrMsg e) ∧
        PushChangesCalls hook push k retries = 1) := by
  constructor
  · intro e he
    cases retries <;>
      exact ⟨by simp [PushChanges, pushIteration, he],
        by simp [PushChangesCalls, pushIteration, he]⟩
  · intro r e hh hp hne hpre
    cases retries <;>
      exact ⟨by simp [PushChanges, pushIteration, hh, hp, hne, hpre],
        by simp [PushChangesCalls, pushIteration, hh, hp, hne, hpre]⟩

/-- Witness for C8: a failing hook propagates its error with one invocation;
an "unauthorized" push failure is wrapped and terminal with one
invocation. -/
theorem pushChanges_hard_errors_terminal_witness :
    (PushChanges failingHook deniedPush 0 5 = some "hook failed" ∧
      PushChangesCalls failingHook deniedPush 0 5 = 1) ∧
    (PushChanges conflictHook deniedPush 0 5 = some (pushOtherErrMsg "unauthorized") ∧
      PushChangesCalls conflictHook deniedPush 0 5 = 1) :=
  ⟨(pushChanges_hard_errors_terminal failingHook deniedPush 0 5).1 "hook failed" rfl,
    (pushChanges_hard_errors_terminal conflictHook deniedPush 0 5).2 ⟨0⟩ "unauthorized"
      rfl rfl (by decide) (by decide)⟩

/-- C9: the `PushChanges` recursion terminates because the retry budget
strictly decreases: unfolding the identical body with fuel `retries + 1`
always bottoms out, for every hook, push oracle, budget and starting
index. -/
theorem pushChanges_budget_bounds_recursion
    (hook : Nat → Except String (Option GitRepository))
    (push : Nat → GitRepository → Option String) (retries k : Nat) :
    PushChangesFuel hook push (retries + 1) k retries =
      some (PushChanges hook push k retries) := by
  induction retries generalizing k with
  | zero =>
    cases hstep : pushIteration hook push k with
    | done res => simp [PushChangesFuel, PushChanges, hstep]
    | conflict => simp [PushChangesFuel, PushChanges, hstep]
  | succ n ih =>
    cases hstep : pushIteration hook push k with
    | done res => simp [PushChangesFuel, PushChanges, hstep]
    | conflict =>
      have hfuel : PushChangesFuel hook push (n + 1 + 1) k (n + 1) =
          PushChangesFuel hook push (n + 1) (k + 1) n := by
        simp [PushChangesFuel, hstep]
      have hrec : PushChanges hook push k (n + 1) = PushChanges hook push (k + 1) n := by
        simp [PushChanges, hstep]
      rw [hfuel, hrec, ih (k + 1)]

/-- C2 counterexample: a pull failure that is not the already-up-to-date
sentinel and not a non-fast-forward conflict (a network error) makes
`pullRepo` return the remote-advanced flag FALSE together with the wrapped
error — not true as the claim states. -/
theorem pullRepo_network_error_flag_false :
    netFailPullEnv.pullRes = some "network error" ∧
      "network error" ≠ noErrAlreadyUpToDate ∧
      (pullRepo netFailPullEnv "somedir").2.1 = false ∧
      (pullRepo netFailPullEnv "somedir").2.2 =
        some "Error pulling latest changes in directory \"somedir\": network error" := by
  refine ⟨rfl, by decide, rfl, rfl⟩

/-- C2 amended: for every pull failure other than already-up-to-date,
`pullRepo` returns a wrapped error, and the remote-advanced flag is true
exactly when the failure is the non-fast-forward sentinel. -/
theorem pullRepo_flag_iff_nonfastforward (env : PullEnv) (dir pe : String)
    (h1 : env.openRes = .ok ()) (h2 : env.worktreeRes = .ok ())
    (h3 : env.pullRes = some pe) (h4 : pe ≠ noErrAlreadyUpToDate) :
    pullRepo env dir =
      (some (), pe == errNonFastForwardUpdate,
        some ("Error pulling latest changes in directory \"" ++ dir ++ "\": " ++ pe)) := by
  simp [pullRepo, h1, h2, h3, h4]

/-- Witness for the amended C2: the network-error pull yields flag false, the
non-fast-forward pull yields flag true, both with wrapped errors. -/
theorem pullRepo_flag_iff_nonfastforward_witness :
    pullRepo netFailPullEnv "somedir" =
      (some (), false,
        some "Error pulling latest changes in directory \"somedir\": network error") ∧
    pullRepo nonFFPullEnv "somedir" =
      (some (), true,
        some "Error pulling latest changes in directory \"somedir\": non-fast-forward update") := by
  constructor
  · rw [pullRepo_flag_iff_nonfastforward netFailPullEnv "somedir" "network error"
      rfl rfl rfl (by decide)]
    decide
  · rw [pullRepo_flag_iff_nonfastforward nonFFPullEnv "somedir" "non-fast-forward update"
      rfl rfl rfl (by decide)]
    decide

/-- C3: `SyncGitRepo` clones exactly when the `.git` probe reports a
"not exist" error, pulls exactly when the probe succeeds, and on any other
probe error returns a hard error with a nil handle and no clone or pull. -/
theorem syncGitRepo_dispatch (env : SyncEnv) (dir : String) :
    (∀ m, env.statDotGit = .errNotExist m →
      SyncGitRepo env dir =
        (.cloned, ((cloneRepo env.cloneRes dir).1, false, (cloneRepo env.cloneRes dir).2))) ∧
    (env.statDotGit = .ok →
      SyncGitRepo env dir = (.pulled, pullRepo env.pullEnv dir)) ∧
    (∀ m, env.statDotGit = .errOther m →
      SyncGitRepo env dir =
        (.probeFailed,
          (none, false,
            some ("Error accessing repo directory's .git sub-directory: " ++ m)))) := by
  refine ⟨fun m hm => ?_, fun hm => ?_, fun m hm => ?_⟩ <;> simp [SyncGitRepo, hm]

/-- Witness for C3: a fresh directory clones, an existing repository pulls,
and a permission-denied probe is a hard error with no handle. -/
theorem syncGitRepo_dispatch_witness :
    SyncGitRepo syncEnvFresh "d" = (.cloned, (some (), false, none)) ∧
    SyncGitRepo syncEnvExisting "d" = (.pulled, (some (), false, none)) ∧
    SyncGitRepo syncEnvDenied "d" =
      (.probeFailed,
        (none, false,
          some "Error accessing repo directory's .git sub-directory: permission denied")) := by
  refine ⟨?_, ?_, ?_⟩
  · rw [(syncGitRepo_dispatch syncEnvFresh "d").1 "no such file or directory" rfl]
    rfl
  · rw [(syncGitRepo_dispatch syncEnvExisting "d").2.1 rfl]
    rfl
  · rw [(syncGitRepo_dispatch syncEnvDenied "d").2.2 "permission denied" rfl]
    rfl

/-- C5: when the status after staging reports zero changed entries,
`CommitFiles` returns `(false, nil)` and leaves the repository state — in
particular the head commit identifier — unchanged. -/
theorem commitFiles_noop_on_empty_status (env : CommitEnv) (st : RepoState)
    (files : List String) (msg : String)
    (h1 : env.worktreeRes = .ok ()) (h2 : stageFiles env.addRes files = none)
    (h3 : env.statusRes = .ok []) :
    CommitFiles env st files msg = (st, false, none) := by
  simp [CommitFiles, h1, h2, h3]

/-- Witness for C5: staging a file list byte-identical to the last commit
(empty status) commits nothing and keeps head 7. -/
theorem commitFiles_noop_on_empty_status_witness :
    CommitFiles noChangeCommitEnv ⟨7⟩ ["README.md"] "Should not happen" =
      (⟨7⟩, false, none) :=
  commitFiles_noop_on_empty_status noChangeCommitEnv ⟨7⟩ ["README.md"]
    "Should not happen" rfl rfl rfl

/-- C6: with a resolvable head, `VerifyTopCommit` returns nil iff some
keyring verifies the head commit's signature; the loop stops at the first
verifying keyring; and with an empty keyring list it returns the error
naming the head commit. -/
theorem verifyTopCommit_first_match (env : VerifyEnv) (ks : List String)
    (hsh : String) (hhead : env.headRes = .ok hsh)
    (hobj : env.commitObjRes = .ok ()) :
    (VerifyTopCommit env ks = none ↔ ∃ k ∈ ks, env.verify k = true) ∧
    (∀ ks₁ k ks₂, ks = ks₁ ++ k :: ks₂ → (∀ x ∈ ks₁, env.verify x = false) →
      env.verify k = true →
      verifyAttempts env.verify ks = ks₁.length + 1) ∧
    (ks = [] → VerifyTopCommit env ks =
      some ("Top commit \"" ++ hsh ++ "\" isn't signed with any of the trusted keys")) := by
  have hbody : VerifyTopCommit env ks =
      if verifyKeyrings env.verify ks then none
      else some ("Top commit \"" ++ hsh ++ "\" isn't signed with any of the trusted keys") := by
    simp [VerifyTopCommit, hhead, hobj]
  refine ⟨?_, ?_, ?_⟩
  · rw [hbody]
    by_cases hv : verifyKeyrings env.verify ks
    · simp only [hv, if_true]
      simpa using (verifyKeyrings_true_iff env.verify ks).mp hv
    · simp only [hv, if_false, Bool.false_eq_true]
      constructor
      · intro hcontr
        exact absurd hcontr (by simp)
      · intro hex
        exact absurd ((verifyKeyrings_true_iff env.verify ks).mpr hex) hv
  · intro ks₁ k ks₂ hks hall hk
    subst hks
    exact verifyAttempts_stops_at_first env.verify ks₁ k ks₂ hall hk
  · intro hks
    subst hks
    rw [hbody]
    simp [verifyKeyrings]

/-- Witness for C6: with only "k2" verifying, verification succeeds on
["k1", "k2", "k3"] after exactly 2 attempts, and the empty keyring list is
rejected with the head-naming error. -/
theorem verifyTopCommit_first_match_witness :
    VerifyTopCommit verifyEnvSecond ["k1", "k2", "k3"] = none ∧
    verifyAttempts verifyEnvSecond.verify ["k1", "k2", "k3"] = 2 ∧
    VerifyTopCommit verifyEnvSecond [] =
      some "Top commit \"abc123\" isn't signed with any of the trusted keys" := by
  refine ⟨?_, ?_, ?_⟩
  · exact (verifyTopCommit_first_match verifyEnvSecond ["k1", "k2", "k3"] "abc123"
      rfl rfl).1.mpr ⟨"k2", by decide, by decide⟩
  · have h := (verifyTopCommit_first_match verifyEnvSecond ["k1", "k2", "k3"] "abc123"
      rfl rfl).2.1 ["k1"] "k2" ["k3"] rfl (by decide) (by decide)
    simpa using h
  · have h := (verifyTopCommit_first_match verifyEnvSecond [] "abc123" rfl rfl).2.2 rfl
    simpa using h

/-- C10: `GetSshCredentials` substitutes the user "git" for an empty user
string and uses a non-empty user as-is; on success the returned credentials
carry exactly that effective user. -/
theorem getSshCredentials_effective_user (env : SshEnv)
    (sshKeyPath knownHostsPath user : String)
    (h1 : env.statSshKey = none)
    (h2 : env.newPublicKeysFromFile (if user = "" then "git" else user) = .ok ())
    (h3 : env.statKnownHosts = none) (h4 : env.knownHostsCallback = .ok ()) :
    GetSshCredentials env sshKeyPath knownHostsPath user =
      .ok ⟨⟨if user = "" then "git" else user⟩⟩ := by
  simp [GetSshCredentials, h1, h2, h3, h4]

/-- Witness for C10: an empty user yields credentials for "git"; the user
"someUser" is carried through unchanged. -/
theorem getSshCredentials_effective_user_witness :
    GetSshCredentials okSshEnv "id_rsa" "known_hosts" "" = .ok ⟨⟨"git"⟩⟩ ∧
    GetSshCredentials okSshEnv "id_rsa" "known_hosts" "someUser" =
      .ok ⟨⟨"someUser"⟩⟩ := by
  constructor
  · rw [getSshCredentials_effective_user okSshEnv "id_rsa" "known_hosts" ""
      rfl rfl rfl rfl]
    rfl
  · rw [getSshCredentials_effective_user okSshEnv "id_rsa" "known_hosts" "someUser"
      rfl rfl rfl rfl]
    rfl

/-- C4 (code bug): exporting the store under the non-empty prefix "sub"
keys the direct child "f" as "sub/f" — the full path, not the path relative
to the prefix that both the claim and the function's own doc comment
promise — because `stripsourcePath` cannot strip "sub/" from the top-level
walk path "sub" itself. -/
theorem getKeyVals_direct_child_keeps_prefix :
    GetKeyVals bugStore "sub" = .ok [("sub/f", "x")] ∧
      stripsourcePath "sub" "sub" = "sub" := by
  constructor
  · have h1 : GetKeyVals bugStore "sub" =
        .ok (buildKeySpace "sub" "sub" [("f", FsTree.file "x")]) := rfl
    rw [h1]
    simp [buildKeySpace]
    decide
  · decide

end GitSDK
